import Mathlib

/-!
Verification of the Flake Analytics Engine
(`src/analytics/flake_metrics.py`, `src/automation/alerts.py`,
`src/api/export.py`, `src/integrations/jira.py`).

The Python code operates on pandas DataFrames; here every frame is a list
of typed rows plus a record of which optional columns are present, UTC
timestamps are rational numbers measured in days, and Python `float`
columns that may hold NaN are `Option ℚ` (with `none` playing the role of
NaN/null).  SHA-1 is embedded in full so that the root-cause signatures
are the actual hexadecimal digests the code produces.
-/

set_option maxRecDepth 100000

namespace FlakeDashboard

/-! ### SHA-1 (as used by `hashlib.sha1(...).hexdigest()`)

All 32-bit words are `Nat` values kept below `2^32` by explicit reduction
`% 4294967296`.
-/

def w32 : Nat := 4294967296

def rotl (n : Nat) (x : Nat) : Nat :=
  ((x <<< n) % w32) ||| (x >>> (32 - n))

/-- Big-endian 64-bit encoding of a natural number, as eight bytes. -/
def be64 (n : Nat) : List Nat :=
  [ (n >>> 56) % 256, (n >>> 48) % 256, (n >>> 40) % 256, (n >>> 32) % 256,
    (n >>> 24) % 256, (n >>> 16) % 256, (n >>> 8) % 256, n % 256 ]

/-- SHA-1 padding: append `0x80`, zero bytes to 56 mod 64, then the
bit length as a big-endian 64-bit integer. -/
def sha1pad (msg : List Nat) : List Nat :=
  let padLen : Nat := (55 + 64 - msg.length % 64) % 64
  msg ++ [128] ++ List.replicate padLen 0 ++ be64 (msg.length * 8)

/-- Read a big-endian 32-bit word from four bytes. -/
def word32 (a b c d : Nat) : Nat := ((a * 256 + b) * 256 + c) * 256 + d

/-- Split a 64-byte chunk into sixteen 32-bit words. -/
def chunkWords : List Nat → List Nat
  | a :: b :: c :: d :: rest => word32 a b c d :: chunkWords rest
  | _ => []

/-- Message-schedule extension: append
`rotl 1 (w[i-3] xor w[i-8] xor w[i-14] xor w[i-16])` the given number of
times. -/
def extendWords : Nat → List Nat → List Nat
  | 0, ws => ws
  | n + 1, ws =>
    let k := ws.length
    let x := (ws.getD (k - 3) 0) ^^^ (ws.getD (k - 8) 0) ^^^
             (ws.getD (k - 14) 0) ^^^ (ws.getD (k - 16) 0)
    extendWords n (ws ++ [rotl 1 x])

/-- Round function and constant for round `i` (0 ≤ i < 80). -/
def sha1fk (i b c d : Nat) : Nat × Nat :=
  if i < 20 then ((b &&& c) ||| ((w32 - 1 - b) &&& d), 1518500249)
  else if i < 40 then (b ^^^ c ^^^ d, 1859775393)
  else if i < 60 then ((b &&& c) ||| (b &&& d) ||| (c &&& d), 2400959708)
  else (b ^^^ c ^^^ d, 3395469782)

/-- One SHA-1 round: state is `(a, b, c, d, e)`. -/
def sha1round (st : Nat × Nat × Nat × Nat × Nat) (iw : Nat × Nat) :
    Nat × Nat × Nat × Nat × Nat :=
  let (a, b, c, d, e) := st
  let (i, w) := iw
  let (f, k) := sha1fk i b c d
  let temp := (rotl 5 a + f + e + k + w) % w32
  (temp, a, rotl 30 b, c, d)

/-- Process one 64-byte chunk, updating the five hash words. -/
def sha1chunk (h : Nat × Nat × Nat × Nat × Nat) (chunk : List Nat) :
    Nat × Nat × Nat × Nat × Nat :=
  let ws := extendWords 64 (chunkWords chunk)
  let (h0, h1, h2, h3, h4) := h
  let (a, b, c, d, e) :=
    ((List.range 80).zip ws).foldl sha1round (h0, h1, h2, h3, h4)
  ((h0 + a) % w32, (h1 + b) % w32, (h2 + c) % w32, (h3 + d) % w32,
   (h4 + e) % w32)

/-- Fold over the given number of 64-byte chunks. -/
def sha1blocks : Nat → List Nat → (Nat × Nat × Nat × Nat × Nat) →
    Nat × Nat × Nat × Nat × Nat
  | 0, _, h => h
  | n + 1, bytes, h => sha1blocks n (bytes.drop 64) (sha1chunk h (bytes.take 64))

def hexChar (n : Nat) : Char :=
  if n < 10 then Char.ofNat (48 + n) else Char.ofNat (87 + n)

/-- Lowercase hexadecimal rendering of a 32-bit word, zero-padded to
eight digits. -/
def toHex8 (x : Nat) : String :=
  String.mk ((List.range 8).map fun i => hexChar ((x >>> (28 - 4 * i)) % 16))

/-- SHA-1 digest of a byte list, as a 40-character lowercase hex string. -/
def sha1hexBytes (msg : List Nat) : String :=
  let padded := sha1pad msg
  let (h0, h1, h2, h3, h4) :=
    sha1blocks (padded.length / 64) padded
      (1732584193, 4023233417, 2562383102, 271733878, 3285377520)
  toHex8 h0 ++ toHex8 h1 ++ toHex8 h2 ++ toHex8 h3 ++ toHex8 h4

/-- UTF-8 encoding of a single character (as produced by Python's
`str.encode()`). -/
def utf8enc (c : Char) : List Nat :=
  let n := c.toNat
  if n < 128 then [n]
  else if n < 2048 then [192 + n / 64, 128 + n % 64]
  else if n < 65536 then [224 + n / 4096, 128 + (n / 64) % 64, 128 + n % 64]
  else [240 + n / 262144, 128 + (n / 4096) % 64, 128 + (n / 64) % 64, 128 + n % 64]

/-- UTF-8 byte sequence of a string. -/
def strBytes (s : String) : List Nat :=
  s.data.foldr (fun c acc => utf8enc c ++ acc) []

/-- Embeds `hashlib.sha1(value.encode()).hexdigest()`: SHA-1 of the UTF-8
encoding of a string. -/
def sha1hex (s : String) : String :=
  sha1hexBytes (strBytes s)

/-! ### Sorting (insertion sort standing in for `DataFrame.sort_values`)

`sort_values` guarantees only that the result is ordered by the key; the
relative order of tied rows is unspecified (the default sort kind is not
stable), so any comparison sort is a faithful embedding wherever the
claims depend on the ordering contract alone. -/

def insertLe (le : α → α → Bool) (x : α) : List α → List α
  | [] => [x]
  | y :: ys => if le x y then x :: y :: ys else y :: insertLe le x ys

def sortLe (le : α → α → Bool) : List α → List α
  | [] => []
  | x :: xs => insertLe le x (sortLe le xs)

/-- Code-point lexicographic order on character lists (Python's string
comparison, used for pandas group keys). -/
def lexLe : List Char → List Char → Bool
  | [], _ => true
  | _ :: _, [] => false
  | a :: as, b :: bs =>
    if a.toNat < b.toNat then true
    else if b.toNat < a.toNat then false
    else lexLe as bs

def strLeB (a b : String) : Bool := lexLe a.data b.data

/-- Non-strict lexicographic order on `(platform, team, signature)`
group keys. -/
def tripleLeB (x y : String × String × String) : Bool :=
  if x.1 = y.1 then
    (if x.2.1 = y.2.1 then strLeB x.2.2 y.2.2 else strLeB x.2.1 y.2.1)
  else strLeB x.1 y.1

/-! ### Data model

A pandas DataFrame of run records becomes a typed row list plus a record
of which optional columns are present.  Failure-metadata cells can be
null (`None`), NaN, or a string. -/

inductive CellValue
  | null
  | nan
  | str (s : String)
deriving DecidableEq, Repr

/-- Python whitespace stripped by `str.strip()` (ASCII part). -/
def isPyWhitespace (c : Char) : Bool :=
  c = ' ' || c = '\t' || c = '\n' || c = '\r' || c = Char.ofNat 11 || c = Char.ofNat 12

/-- Embeds `str.strip()`: drop leading and trailing whitespace. -/
def pyStrip (s : String) : String :=
  String.mk (((s.data.dropWhile isPyWhitespace).reverse.dropWhile isPyWhitespace).reverse)

/-- Embeds `_normalize_component` (flake_metrics.py:81-86): `None` and NaN
become the empty string; anything else is converted to string and
stripped. -/
def normalizeComponent : CellValue → String
  | .null => ""
  | .nan => ""
  | .str s => pyStrip s

/-- ASCII lower-casing (`str.lower()` restricted to ASCII status
strings). -/
def lowerChar (c : Char) : Char :=
  if 65 ≤ c.toNat ∧ c.toNat ≤ 90 then Char.ofNat (c.toNat + 32) else c

def lowerStr (s : String) : String := String.mk (s.data.map lowerChar)

/-- One run record.  `executed_at` is a UTC instant measured in days (a
rational number). -/
structure RunRow where
  test_name : String
  status : String
  executed_at : ℚ
  run_id : Option String := none
  platform : String := ""
  team : String := ""
  failure_reason : CellValue := .null
  stack_trace_hash : CellValue := .null
  error_code : CellValue := .null
  run_url : Option String := none
  log_path : Option String := none
deriving DecidableEq, Repr

/-- Which optional columns exist in the dataset (the required columns
`test_name`, `status`, `executed_at` and the failure-metadata columns
are part of the typed row). -/
structure Schema where
  hasRunId : Bool := false
  hasPlatform : Bool := false
  hasTeam : Bool := false
  hasRunUrl : Bool := false
  hasLogPath : Bool := false
deriving DecidableEq, Repr

structure RunsFrame where
  schema : Schema
  rows : List RunRow
deriving DecidableEq, Repr

/-- A row of a frame that carries the derived boolean `failed` column. -/
structure FlaggedRow where
  base : RunRow
  failed : Bool
deriving DecidableEq, Repr

structure FlaggedFrame where
  schema : Schema
  rows : List FlaggedRow
deriving DecidableEq, Repr

/-- Embeds `status_normalized.isin({"failed", "error", "flake", "flaky"})`
(flake_metrics.py:155-156). -/
def statusFailed (r : RunRow) : Bool :=
  ["failed", "error", "flake", "flaky"].contains (lowerStr r.status)

/-- Embeds `metrics_df["failed"] = ...`: attach the derived failure flag (on a
copy of the input frame). -/
def flagFrame (f : RunsFrame) : FlaggedFrame :=
  ⟨f.schema, f.rows.map fun r => ⟨r, statusFailed r⟩⟩

/-! ### `assign_root_cause_group_ids` (flake_metrics.py:89-109)

Each of the three metadata columns is normalized, the values are joined
positionally with `"||"`, and each joined string is hashed.  The three
metadata columns are always part of the typed row, so the `KeyError`
branch for a structurally missing column cannot arise here. -/

def rowSignatureInput (r : RunRow) : String :=
  normalizeComponent r.failure_reason ++ "||" ++
    normalizeComponent r.stack_trace_hash ++ "||" ++
    normalizeComponent r.error_code

def assignRootCauseGroupIds (rows : List FlaggedRow) : List String :=
  rows.map fun r => sha1hex (rowSignatureInput r.base)

/-! ### `compute_stability_windows` (flake_metrics.py:112-141)

Per test, rows are sorted by `executed_at`; for each row at time `t` and
window length `W` the rolling aggregation counts failed and total runs
with timestamp in `(t − W, t]` inside the same test's rows; stability is
`1 − failed/total`.  A zero-total window (impossible here because the
row at `t` is itself inside the window, but the code guards it through
`use_inf_as_na`) becomes NaN and is then forward-filled and defaulted to
`1.0`. -/

structure StabRow where
  base : RunRow
  failed : Bool
  stability_7d : ℚ
  stability_30d : ℚ
deriving DecidableEq, Repr

/-- Subtraction on ℚ, written out on numerators and denominators
(`Rat.add`/`Rat.sub` are `@[irreducible]`, so this kernel-computable
form is used inside the embedded pipeline; `qsub_eq_sub` below proves it
equal to `a - b`). -/
def qsub (a b : ℚ) : ℚ :=
  Rat.divInt (a.num * b.den - b.num * a.den) (a.den * b.den)

def inWindow (w t : ℚ) (r : FlaggedRow) : Bool :=
  decide (qsub t w < r.base.executed_at) && decide (r.base.executed_at ≤ t)

/-- Embeds `stability.fillna(method="ffill").fillna(1.0)`: forward-fill, then
default the still-missing prefix to 1.0. -/
def fillStab : Option ℚ → List (Option ℚ) → List ℚ
  | _, [] => []
  | carry, Option.none :: rest => carry.getD 1 :: fillStab carry rest
  | _, Option.some v :: rest => v :: fillStab (Option.some v) rest

/-- Rolling stability values, in row order, over an already time-sorted
group. -/
def stabSeries (grp : List FlaggedRow) (w : ℚ) : List ℚ :=
  fillStab Option.none
    (grp.map fun r =>
      let win := grp.filter (inWindow w r.base.executed_at)
      if win.length = 0 then Option.none
      else Option.some
        (qsub 1 (mkRat ((win.filter (·.failed)).length : Int) win.length)))

def zipStab : List FlaggedRow → List ℚ → List ℚ → List StabRow
  | r :: rs, a :: as, b :: bs => ⟨r.base, r.failed, a, b⟩ :: zipStab rs as bs
  | _, _, _ => []

def sortByTime (grp : List FlaggedRow) : List FlaggedRow :=
  sortLe (fun a b => decide (a.base.executed_at ≤ b.base.executed_at)) grp

/-- Embeds `_apply_windows`: sort the group chronologically and attach the
7-day and 30-day stability columns. -/
def applyWindows (grp : List FlaggedRow) : List StabRow :=
  let g := sortByTime grp
  zipStab g (stabSeries g 7) (stabSeries g 30)

/-- Distinct group keys in ascending order (`groupby` sorts its keys). -/
def groupKeys (names : List String) : List String :=
  sortLe strLeB names.dedup

/-- Embeds `df.groupby("test_name", group_keys=False).apply(_apply_windows)`:
the per-group results concatenated in group-key order. -/
def computeStabilityWindows (f : FlaggedFrame) : List StabRow :=
  (groupKeys (f.rows.map (·.base.test_name))).flatMap fun k =>
    applyWindows (f.rows.filter (·.base.test_name = k))

/-! ### `compute_per_test_flake_metrics` (flake_metrics.py:144-195) -/

structure PerTestRow where
  test_name : String
  total_runs : Nat
  failed_runs : Nat
  flake_rate : ℚ
  stability_7d : Option ℚ
  stability_30d : Option ℚ
  platform : Option String
  team : Option String
deriving DecidableEq, Repr

/-- One row of the `totals` frame: `total_runs` counts the non-null
`run_id` values when that column exists, else the `failed` column (never
null); `flake_rate = failed_runs / total_runs` with a zero denominator
replaced by 1 (`.where(totals["total_runs"] != 0, 1)`); the quotient is
written `mkRat`, which `mkRat_eq_div_cast` below equates with `/`. -/
def totalsFor (schema : Schema) (enriched : List StabRow) (name : String) :
    String × Nat × Nat × ℚ :=
  let grp := enriched.filter (·.base.test_name = name)
  let total := if schema.hasRunId
    then (grp.filter (·.base.run_id.isSome)).length
    else grp.length
  let failedC := (grp.filter (·.failed)).length
  (name, total, failedC, mkRat (failedC : Int) (if total = 0 then 1 else total))

/-- The chronologically latest enriched row of a test:
`stability_enriched.sort_values("executed_at").groupby("test_name").tail(1)`.
Within one test the enriched rows are already time-ascending, and a
stable re-sort of the whole frame keeps that relative order, so the
latest row is the last row of the test's slice. -/
def latestStab (enriched : List StabRow) (name : String) : Option StabRow :=
  (enriched.filter (·.base.test_name = name)).getLast?

/-- A pandas index label: the default integer (positional) index or a
string label. -/
inductive IdxVal
  | nat (n : Nat)
  | str (s : String)
deriving DecidableEq, Repr

/-- Label lookup during assignment alignment. -/
def alignLookup (tbl : List (IdxVal × ℚ)) (k : IdxVal) : Option ℚ :=
  (tbl.find? fun p => p.1 = k).map (·.2)

/-- Embeds `totals[column] = latest_stability[column]` (flake_metrics.py:177):
assigning a Series to a DataFrame column aligns the Series on the
frame's index.  `totals` carries the default integer index (after
`reset_index()`), while `latest_stability` is indexed by `test_name`,
so each row looks its positional label up in a string-keyed table; a
label with no match yields NaN (`none`). -/
def alignColumn (n : Nat) (tbl : List (IdxVal × ℚ)) : List (Option ℚ) :=
  (List.range n).map fun i => alignLookup tbl (IdxVal.nat i)

def perTestLe (a b : PerTestRow) : Bool := decide (b.flake_rate ≤ a.flake_rate)

/-- One output row of the `totals` frame after the stability columns
were aligned in and the optional platform/team enrichment merged
(flake_metrics.py:159-193). -/
def perTestRowOf (sch : Schema) (enriched : List StabRow)
    (totals : List (String × Nat × Nat × ℚ)) (s7 s30 : List (Option ℚ))
    (i : Nat) : PerTestRow :=
  let t := totals.getD i ("", 0, 0, 0)
  { test_name := t.1
    total_runs := t.2.1
    failed_runs := t.2.2.1
    flake_rate := t.2.2.2
    stability_7d := (s7.getD i Option.none)
    stability_30d := (s30.getD i Option.none)
    platform := if sch.hasPlatform
      then (latestStab enriched t.1).map (·.base.platform) else Option.none
    team := if sch.hasTeam
      then (latestStab enriched t.1).map (·.base.team) else Option.none }

/-- The pure body of `compute_per_test_flake_metrics` after the `failed`
column has been attached (flake_metrics.py:158-195). -/
def perTestCore (f : FlaggedFrame) : List PerTestRow :=
  let enriched := computeStabilityWindows f
  let keys := groupKeys (enriched.map (·.base.test_name))
  let totals := keys.map (totalsFor f.schema enriched)
  let tbl7 : List (IdxVal × ℚ) := keys.filterMap fun k =>
    (latestStab enriched k).map fun s => (IdxVal.str k, s.stability_7d)
  let tbl30 : List (IdxVal × ℚ) := keys.filterMap fun k =>
    (latestStab enriched k).map fun s => (IdxVal.str k, s.stability_30d)
  let s7 := alignColumn totals.length tbl7
  let s30 := alignColumn totals.length tbl30
  sortLe perTestLe
    ((List.range totals.length).map (perTestRowOf f.schema enriched totals s7 s30))

/-- Embeds `compute_per_test_flake_metrics` (flake_metrics.py:144-195): copy the
input, attach the normalized `failed` flag, and aggregate. -/
def computePerTestFlakeMetrics (f : RunsFrame) : List PerTestRow :=
  perTestCore (flagFrame f)

/-! ### `compute_failure_group_summaries` (flake_metrics.py:198-235) -/

/-- A failed row enriched with its root-cause signature
(`failure_df["root_cause_group_id"] = ...`). -/
structure SigRow where
  base : RunRow
  failed : Bool
  root_cause_group_id : String
deriving DecidableEq, Repr

def attachSignatures (rows : List FlaggedRow) : List SigRow :=
  (rows.zip (assignRootCauseGroupIds rows)).map fun p =>
    ⟨p.1.base, p.1.failed, p.2⟩

structure GroupRow where
  platform : String
  team : String
  root_cause_group_id : String
  failure_count : Nat
  affected_tests : Nat
  latest_failure_at : ℚ
deriving DecidableEq, Repr

/-- A result frame: the declared column set together with the rows. -/
structure GroupsFrame where
  columns : List String
  rows : List GroupRow
deriving DecidableEq, Repr

def failureGroupColumns : List String :=
  ["platform", "team", "root_cause_group_id", "failure_count",
   "affected_tests", "latest_failure_at"]

def maxQ : List ℚ → ℚ
  | [] => 0
  | [x] => x
  | x :: y :: rest => max x (maxQ (y :: rest))

def sigKey (r : SigRow) : String × String × String :=
  (r.base.platform, r.base.team, r.root_cause_group_id)

def groupRowLe (a b : GroupRow) : Bool := decide (b.failure_count ≤ a.failure_count)

/-- Embeds `compute_failure_group_summaries`: validate the required columns,
restrict to failed rows, and if any remain, assign signatures and
aggregate by `(platform, team, root_cause_group_id)` (keys ascending,
then rows re-sorted by `failure_count` descending).  `affected_tests`
counts distinct test names; `latest_failure_at` is the maximal
timestamp. -/
def computeFailureGroupSummaries (f : FlaggedFrame) : Except String GroupsFrame :=
  if f.schema.hasPlatform = true ∧ f.schema.hasTeam = true then
    let failureRows := f.rows.filter (·.failed)
    if failureRows.isEmpty then
      Except.ok ⟨failureGroupColumns, []⟩
    else
      let sigRows := attachSignatures failureRows
      let keys := sortLe tripleLeB ((sigRows.map sigKey).dedup)
      let rows := keys.map fun k =>
        let grp := sigRows.filter fun r => sigKey r = k
        { platform := k.1
          team := k.2.1
          root_cause_group_id := k.2.2
          failure_count := grp.length
          affected_tests := (grp.map (·.base.test_name)).dedup.length
          latest_failure_at := maxQ (grp.map (·.base.executed_at)) }
      Except.ok ⟨failureGroupColumns, sortLe groupRowLe rows⟩
  else
    Except.error "Missing required columns for failure grouping"

/-! ### `build_failure_group_runs` (flake_metrics.py:238-270) -/

/-- The drill-down frame: rows keep the full record; `columns` records
which columns the projection `failure_df[columns]` selected. -/
structure DrillFrame where
  columns : List String
  rows : List SigRow
deriving DecidableEq, Repr

def failureGroupRunColumns : List String :=
  ["root_cause_group_id", "test_name", "run_id", "executed_at",
   "run_url", "log_path", "failure_reason"]

/-- The column list for a non-empty drill-down result: optional columns
are included only when present in the source frame
(flake_metrics.py:259-268). -/
def drillColumns (s : Schema) : List String :=
  ["root_cause_group_id", "test_name"] ++
    (if s.hasRunId then ["run_id"] else []) ++ ["executed_at"] ++
    (if s.hasRunUrl then ["run_url"] else []) ++
    (if s.hasLogPath then ["log_path"] else []) ++ ["failure_reason"]

def sigRowTimeDesc (a b : SigRow) : Bool :=
  decide (b.base.executed_at ≤ a.base.executed_at)

/-- Embeds `build_failure_group_runs`: restrict to failed rows; when none
remain return the empty frame with the full declared column set, else
attach signatures and sort most-recent-first. -/
def buildFailureGroupRuns (f : FlaggedFrame) : DrillFrame :=
  let failureRows := f.rows.filter (·.failed)
  if failureRows.isEmpty then
    ⟨failureGroupRunColumns, []⟩
  else
    ⟨drillColumns f.schema, sortLe sigRowTimeDesc (attachSignatures failureRows)⟩

/-! ### Weekly insight enrichment (spec §4.5)

`WeeklyFlakeInsight` and `latest_anomalies` are imported from
`analytics.flake_metrics` by `automation/alerts.py` and `api/export.py`,
but their defining code is not in the repository snapshot; the
enrichment is therefore modelled from the spec.  A week-over-week delta
is a Python float and can be `float("inf")`. -/

/-- A week-over-week delta value: finite, or `+infinity` (the Python
float `inf` produced by a jump from a ~0 rate). -/
inductive RateDelta
  | posInf
  | fin (q : ℚ)
deriving DecidableEq, Repr

/-- Embeds `delta >= threshold` on Python floats, where `delta` may be `inf`. -/
def RateDelta.geQ : RateDelta → ℚ → Bool
  | .posInf, _ => true
  | .fin q, t => decide (t ≤ q)

structure WeeklyFlakeSample where
  week_start : ℚ
  test_runs : Nat
  flake_failures : Nat
deriving DecidableEq, Repr

/-- Modelled from the spec (§3 WeeklyFlakeSample): derived
`flake_rate = flake_failures / test_runs` (0 when `test_runs` is 0). -/
def sampleRate (s : WeeklyFlakeSample) : ℚ :=
  if s.test_runs = 0 then 0 else (s.flake_failures : ℚ) / (s.test_runs : ℚ)

/-- Modelled from the spec (§4.5): the floating tolerance below which a
rate counts as "approximately zero". -/
def rateTol : ℚ := 1 / 1000000000

def approxZero (r : ℚ) : Bool := decide (-rateTol ≤ r ∧ r ≤ rateTol)

/-- Modelled from the spec (§4.5): the week-over-week delta of rate `r`
against the previous week's rate `prev` — `+infinity` on a jump from a
~0 rate, 0 when both are ~0, else `(r − prev) / prev`. -/
def wowDelta (prev r : ℚ) : RateDelta :=
  if approxZero prev then
    (if approxZero r then .fin 0 else .posInf)
  else .fin ((r - prev) / prev)

/-- Modelled from the spec (§4.5): deltas over a chronologically sorted
rate sequence — `none` for the first week, `wowDelta` of each adjacent
pair afterwards. -/
def assignWowDeltas (rates : List ℚ) : List (Option RateDelta) :=
  match rates with
  | [] => []
  | r0 :: rest => Option.none :: go r0 rest
where
  go (prev : ℚ) : List ℚ → List (Option RateDelta)
    | [] => []
    | r :: rest => Option.some (wowDelta prev r) :: go r rest

def sampleLe (a b : WeeklyFlakeSample) : Bool := decide (a.week_start ≤ b.week_start)

/-- Modelled from the spec (§4.5, `WeeklyFlakeInsight` and the missing
enricher in `analytics.flake_metrics`): sort the samples by week start,
then assign week-over-week deltas in chronological order. -/
def enrichWowDeltas (samples : List WeeklyFlakeSample) : List (Option RateDelta) :=
  assignWowDeltas ((sortLe sampleLe samples).map sampleRate)

/-! ### `AlertingEngine` (automation/alerts.py:51-115) -/

/-- A weekly insight as consumed by the alerting engine: the enriched
sample with its delta, Z-score, and anomaly flag (`wow_delta` and
`z_score` are nullable floats). -/
structure WeeklyFlakeInsight where
  week_start : ℚ
  test_runs : Nat
  flake_failures : Nat
  flake_rate : ℚ
  wow_delta : Option RateDelta
  z_score : Option ℚ
  is_anomalous : Bool
deriving DecidableEq, Repr

/-- Embeds `ThresholdConfig` (alerts.py:51-57). -/
structure ThresholdConfig where
  max_flake_rate : ℚ := 1 / 20
  max_wow_delta : ℚ := 1 / 2
  max_z_score : ℚ := 3
deriving DecidableEq, Repr

/-- The `subject_bits` accumulated by `AlertingEngine.run`
(alerts.py:80-99): one entry per independently triggered rule. -/
def subjectBits (cfg : ThresholdConfig) (latest : WeeklyFlakeInsight) : List String :=
  (if cfg.max_flake_rate ≤ latest.flake_rate then ["High flake rate"] else []) ++
  (match latest.wow_delta with
    | Option.some d => if d.geQ cfg.max_wow_delta then ["Week-over-week spike"] else []
    | Option.none => []) ++
  (match latest.z_score with
    | Option.some z => if cfg.max_z_score ≤ z then ["Anomalous spike"] else []
    | Option.none => [])

/-- Embeds `AlertingEngine.run` (alerts.py:71-115), reduced to its dispatch
decision: `none` when nothing is notified (empty input, or no rule
triggered on the latest insight), else the `subject_bits` of the single
composite notification handed to every registered notifier.  The body
text and the appended `latest_anomalies` context do not influence
whether `_notify` runs. -/
def alertingRun (cfg : ThresholdConfig) (insights : List WeeklyFlakeInsight) :
    Option (List String) :=
  match insights with
  | [] => Option.none
  | i :: rest =>
    let latest := (i :: rest).getLast (List.cons_ne_nil i rest)
    let bits := subjectBits cfg latest
    if bits.isEmpty then Option.none else Option.some bits

/-! ### `api/export.py` and `integrations/jira.py` -/

/-- A UTC datetime: its position on the timeline in days, plus its ISO
rendering (carried so `isoformat()` stays a pure projection). -/
structure DateTimeU where
  t : ℚ
  iso : String := ""
deriving DecidableEq, Repr

/-- Embeds `JiraTicketMetadata` (jira.py:33-39). -/
structure JiraTicketMetadata where
  key : String
  created_at : DateTimeU
  url : Option String := none
deriving DecidableEq, Repr

/-- Embeds `RootCauseGroup` (export.py:37-48). -/
structure RootCauseGroup where
  identifier : String
  summary : String
  created_at : DateTimeU
  resolved_at : Option DateTimeU := none
  jira_ticket : Option JiraTicketMetadata := none
deriving DecidableEq, Repr

def RootCauseGroup.is_unresolved (g : RootCauseGroup) : Bool :=
  g.resolved_at = none

/-- Embeds `groups_exceeding_sla` (export.py:97-108) with an explicitly
supplied evaluation time (the `utcnow()` default is the caller's
concern): keep, in order, the unresolved groups whose age is at least
`sla_days` days. -/
def groupsExceedingSla (groups : List RootCauseGroup) (sla_days : ℤ)
    (now : DateTimeU) : List RootCauseGroup :=
  match groups with
  | [] => []
  | g :: rest =>
    if g.is_unresolved ∧ (sla_days : ℚ) ≤ now.t - g.created_at.t then
      g :: groupsExceedingSla rest sla_days now
    else
      groupsExceedingSla rest sla_days now

/-- The response dict returned by the Jira HTTP transport, restricted to
the keys `ensure_jira_tickets` reads (`"key"` and `"self"`). -/
structure JiraResponse where
  key : Option String := none
  self_url : Option String := none
deriving DecidableEq, Repr

/-- Embeds `JiraClient` (jira.py:14-31): the transport is a pure function of
the URL and the issue summary/description (the rest of the payload is
constant). -/
structure JiraClient where
  base_url : String
  project_key : String
  transport : String → String → String → JiraResponse

/-- Embeds `JiraClient.create_ticket` (jira.py:22-31). -/
def JiraClient.create_ticket (c : JiraClient) (summary description : String) :
    JiraResponse :=
  c.transport (c.base_url ++ "/rest/api/2/issue") summary description

def escalationSummary (g : RootCauseGroup) : String :=
  "Flake group " ++ g.identifier ++ " unresolved"

def escalationDescription (g : RootCauseGroup) : String :=
  "Automated escalation triggered because the root-cause group '" ++
    g.summary ++ "' has been unresolved since " ++ g.created_at.iso

/-- The ticket metadata built from a `create_ticket` response
(export.py:130-131); `ticketNow` is the `datetime.utcnow()` observed
when the ticket is recorded. -/
def mkTicket (client : JiraClient) (g : RootCauseGroup) (ticketNow : DateTimeU) :
    JiraTicketMetadata :=
  let response := client.create_ticket (escalationSummary g) (escalationDescription g)
  { key := response.key.getD "UNKNOWN"
    created_at := ticketNow
    url := response.self_url }

/-- The loop of `ensure_jira_tickets` (export.py:117-133) over the
overdue groups: returned tickets and the `create_ticket` calls made, as
`(summary, description)` pairs. -/
def ensureLoop (client : JiraClient) (ticketNow : DateTimeU) :
    List RootCauseGroup → List JiraTicketMetadata × List (String × String)
  | [] => ([], [])
  | g :: rest =>
    let (ts, cs) := ensureLoop client ticketNow rest
    match g.jira_ticket with
    | Option.some t => (t :: ts, cs)
    | Option.none =>
      (mkTicket client g ticketNow :: ts,
        (escalationSummary g, escalationDescription g) :: cs)

/-- Embeds `ensure_jira_tickets` (export.py:111-134): tickets for the overdue
groups, the caller's group list as observed after the call (the loop
mutates each overdue ticket-less group in place, storing the fresh
metadata on it), and the list of `create_ticket` calls issued. -/
def ensureJiraTickets (groups : List RootCauseGroup) (sla_days : ℤ)
    (client : JiraClient) (now ticketNow : DateTimeU) :
    List JiraTicketMetadata × List RootCauseGroup × List (String × String) :=
  let overdue := groupsExceedingSla groups sla_days now
  let (tickets, calls) := ensureLoop client ticketNow overdue
  let updated := groups.map fun g =>
    if (g.is_unresolved ∧ (sla_days : ℚ) ≤ now.t - g.created_at.t) ∧
        g.jira_ticket = none then
      { g with jira_ticket := Option.some (mkTicket client g ticketNow) }
    else g
  (tickets, updated, calls)

/-! ### Frame-effect model

pandas frames have reference semantics: to state that the analytics
functions leave the caller's frame untouched, each function is also
rendered as a program over a store of frame objects.  `df.copy()` (and
the filtering selection `df[mask]`, which already returns a new frame)
allocates a fresh object; every in-place column assignment
(`metrics_df["failed"] = ...`, `failure_df["root_cause_group_id"] = ...`)
is a store update at the object it targets. -/

inductive PandasObj
  | runs (f : RunsFrame)
  | flagged (f : FlaggedFrame)
  | sigged (schema : Schema) (rows : List SigRow)
deriving DecidableEq, Repr

abbrev FrameStore := List PandasObj

def emptyRuns : RunsFrame := ⟨{}, []⟩

def allocObj (s : FrameStore) (x : PandasObj) : FrameStore × Nat :=
  (s ++ [x], s.length)

def setObj (s : FrameStore) (i : Nat) (x : PandasObj) : FrameStore := s.set i x

def getObj (s : FrameStore) (i : Nat) : PandasObj := s.getD i (.runs emptyRuns)

def asRuns : PandasObj → RunsFrame
  | .runs f => f
  | .flagged f => ⟨f.schema, f.rows.map (·.base)⟩
  | .sigged sch rows => ⟨sch, rows.map (·.base)⟩

def asFlagged : PandasObj → FlaggedFrame
  | .runs f => ⟨f.schema, f.rows.map fun r => ⟨r, false⟩⟩
  | .flagged f => f
  | .sigged sch rows => ⟨sch, rows.map fun r => ⟨r.base, r.failed⟩⟩

/-- Embeds `compute_per_test_flake_metrics` as a store program: copy the input
(line 154), attach the `failed` column to the copy (line 156), then
aggregate purely. -/
def perTestProg (s : FrameStore) (df : Nat) : FrameStore × List PerTestRow :=
  let input := asRuns (getObj s df)
  let (s1, m) := allocObj s (.runs input)
  let flagged := flagFrame (asRuns (getObj s1 m))
  let s2 := setObj s1 m (.flagged flagged)
  (s2, perTestCore (asFlagged (getObj s2 m)))

/-- Embeds `compute_failure_group_summaries` as a store program: the schema
check raises before anything is allocated; `df[df["failed"]].copy()`
(line 210) allocates the restriction, and the signature column (line
223) is written onto that fresh object only. -/
def summariesProg (s : FrameStore) (df : Nat) :
    FrameStore × Except String GroupsFrame :=
  let input := asFlagged (getObj s df)
  if input.schema.hasPlatform = true ∧ input.schema.hasTeam = true then
    let failureRows := input.rows.filter (·.failed)
    let (s1, fref) := allocObj s (.flagged ⟨input.schema, failureRows⟩)
    if failureRows.isEmpty then
      (s1, Except.ok ⟨failureGroupColumns, []⟩)
    else
      let sigRows := attachSignatures (asFlagged (getObj s1 fref)).rows
      let s2 := setObj s1 fref (.sigged input.schema sigRows)
      (s2, computeFailureGroupSummaries input)
  else
    (s, Except.error "Missing required columns for failure grouping")

/-- Embeds `build_failure_group_runs` as a store program (lines 243, 257). -/
def drillProg (s : FrameStore) (df : Nat) : FrameStore × DrillFrame :=
  let input := asFlagged (getObj s df)
  let failureRows := input.rows.filter (·.failed)
  let (s1, fref) := allocObj s (.flagged ⟨input.schema, failureRows⟩)
  if failureRows.isEmpty then
    (s1, ⟨failureGroupRunColumns, []⟩)
  else
    let sigRows := attachSignatures (asFlagged (getObj s1 fref)).rows
    let s2 := setObj s1 fref (.sigged input.schema sigRows)
    (s2, buildFailureGroupRuns input)


/-! ### Concrete datasets used as witnesses and counterexamples

`sampleFrame` is the spec's example dataset (§8) and the repository's own
test fixture (`tests/test_flake_metrics.py`): five runs on
2024-01-01..04, rendered with 2024-01-01T00:00Z as day 0. -/

def dfltFlagged : FlaggedRow := ⟨{ test_name := "", status := "", executed_at := 0 }, false⟩

def dfltPerTest : PerTestRow :=
  { test_name := "", total_runs := 0, failed_runs := 0, flake_rate := 0,
    stability_7d := Option.none, stability_30d := Option.none,
    platform := Option.none, team := Option.none }

def dfltGroup : RootCauseGroup := { identifier := "", summary := "", created_at := ⟨0, ""⟩ }

def sampleRow (rid name status : String) (t : ℚ) (plat tm : String)
    (fr sth ec : CellValue) : RunRow :=
  { test_name := name, status := status, executed_at := t, run_id := some rid,
    platform := plat, team := tm,
    failure_reason := fr, stack_trace_hash := sth, error_code := ec,
    run_url := some ("https://ci.example/runs/" ++ rid),
    log_path := some ("/logs/" ++ rid) }

def sampleFrame : RunsFrame :=
  { schema := { hasRunId := true, hasPlatform := true, hasTeam := true,
                hasRunUrl := true, hasLogPath := true },
    rows :=
      [ sampleRow "1" "test_checkout" "passed" 0 "linux" "checkout" .null .null .null,
        sampleRow "2" "test_checkout" "failed" 1 "linux" "checkout"
          (.str "AssertionError: price mismatch") (.str "abc123") (.str "E_ASSERT"),
        sampleRow "3" "test_checkout" "passed" 2 "linux" "checkout" .null .null .null,
        sampleRow "4" "test_login" "failed" (mkRat 1 2) "mac" "auth"
          (.str "TimeoutError") (.str "def456") (.str "E_TIMEOUT"),
        sampleRow "5" "test_login" "failed" (mkRat 7 2) "mac" "auth"
          (.str "TimeoutError") (.str "def456") (.str "E_TIMEOUT") ] }

/-- A dataset whose `run_id` column exists but holds only nulls: both
runs of test `"t"` failed, so `failed_runs = 2` while the non-null
`run_id` count is 0. -/
def nullRunIdFrame : RunsFrame :=
  { schema := { hasRunId := true },
    rows :=
      [ { test_name := "t", status := "failed", executed_at := 0, run_id := Option.none },
        { test_name := "t", status := "failed", executed_at := 1, run_id := Option.none } ] }

/-- Two failed records with whitespace-differing but identically
normalized failure metadata. -/
def c1rows : List FlaggedRow :=
  [ ⟨{ test_name := "test_login", status := "failed", executed_at := 0,
       failure_reason := .str "  TimeoutError ", stack_trace_hash := .str "def456",
       error_code := .str "E_TIMEOUT" }, true⟩,
    ⟨{ test_name := "test_login", status := "failed", executed_at := 1,
       failure_reason := .str "TimeoutError", stack_trace_hash := .str " def456",
       error_code := .str "E_TIMEOUT  " }, true⟩ ]

/-- An all-passed flagged frame (platform/team columns present). -/
def noFailFrame : FlaggedFrame :=
  { schema := { hasRunId := true, hasPlatform := true, hasTeam := true },
    rows := [ ⟨{ test_name := "t", status := "passed", executed_at := 0,
                 platform := "linux", team := "core" }, false⟩ ] }

/-- Root-cause groups for the SLA scenarios: `g0` is overdue without a
ticket, `g1` is overdue with an existing ticket, `g2` is recent, and
`g3` is resolved. -/
def slaTicket : JiraTicketMetadata := { key := "FLAKE-7", created_at := ⟨3, "d3"⟩ }

def slaG0 : RootCauseGroup := { identifier := "aaa", summary := "boom", created_at := ⟨0, "d0"⟩ }

def slaG1 : RootCauseGroup :=
  { identifier := "bbb", summary := "slow", created_at := ⟨1, "d1"⟩,
    jira_ticket := some slaTicket }

def slaG2 : RootCauseGroup := { identifier := "ccc", summary := "new", created_at := ⟨9, "d9"⟩ }

def slaG3 : RootCauseGroup :=
  { identifier := "ddd", summary := "done", created_at := ⟨0, "d0"⟩,
    resolved_at := some ⟨2, "d2"⟩ }

def slaGroups : List RootCauseGroup := [slaG0, slaG1, slaG2, slaG3]

def slaClient : JiraClient :=
  { base_url := "https://jira.example", project_key := "FLK",
    transport := fun _ s _ => { key := some ("FLK-" ++ toString s.length), self_url := some "u" } }

/-- The per-test output row computed for test_login on `sampleFrame`
(both runs failed; the stability columns are NaN after misalignment). -/
def loginMetricRow : PerTestRow :=
  { test_name := "test_login", total_runs := 2, failed_runs := 2,
    flake_rate := 1, stability_7d := Option.none, stability_30d := Option.none,
    platform := some "mac", team := some "auth" }

/-! ### Helper lemmas -/

theorem sha1hex_empty_vector :
    sha1hex "" = "da39a3ee5e6b4b0d3255bfef95601890afd80709" := by decide

theorem sha1hex_abc_vector :
    sha1hex "abc" = "a9993e364706816aba3e25717850c26c9cd0d89d" := by decide

theorem mem_insertLe (le : α → α → Bool) (x a : α) (l : List α) :
    a ∈ insertLe le x l ↔ a = x ∨ a ∈ l := by
  induction l with
  | nil => simp [insertLe]
  | cons y ys ih =>
    by_cases h : le x y = true
    · simp [insertLe, h]
    · simp [insertLe, h, ih]
      tauto

theorem mem_sortLe (le : α → α → Bool) (a : α) (l : List α) :
    a ∈ sortLe le l ↔ a ∈ l := by
  induction l with
  | nil => simp [sortLe]
  | cons x xs ih => simp [sortLe, mem_insertLe, ih]

theorem pairwise_insertLe (le : α → α → Bool)
    (htot : ∀ a b, le a b = true ∨ le b a = true)
    (htrans : ∀ a b c, le a b = true → le b c = true → le a c = true)
    (x : α) (l : List α)
    (hl : l.Pairwise (fun a b => le a b = true)) :
    (insertLe le x l).Pairwise (fun a b => le a b = true) := by
  induction l with
  | nil => simp [insertLe]
  | cons y ys ih =>
    rcases hl with _ | ⟨hy, hys⟩
    by_cases h : le x y = true
    · rw [insertLe, if_pos h]
      refine List.Pairwise.cons ?_ (List.Pairwise.cons hy hys)
      intro b hb
      rw [List.mem_cons] at hb
      rcases hb with heq | hb
      · rw [heq]; exact h
      · exact htrans x y b h (hy b hb)
    · rw [insertLe, if_neg h]
      refine List.Pairwise.cons ?_ (ih hys)
      intro b hb
      rw [mem_insertLe] at hb
      rcases hb with heq | hb
      · rw [heq]
        rcases htot x y with hxy | hyx
        · exact absurd hxy h
        · exact hyx
      · exact hy b hb

theorem pairwise_sortLe (le : α → α → Bool)
    (htot : ∀ a b, le a b = true ∨ le b a = true)
    (htrans : ∀ a b c, le a b = true → le b c = true → le a c = true)
    (l : List α) :
    (sortLe le l).Pairwise (fun a b => le a b = true) := by
  induction l with
  | nil => exact List.Pairwise.nil
  | cons x xs ih => exact pairwise_insertLe le htot htrans x (sortLe le xs) ih

theorem insertLe_of_head (le : α → α → Bool) (x y : α) (l : List α)
    (h : le x y = true) : insertLe le x (y :: l) = x :: y :: l := by
  simp [insertLe, h]

/-- Inserting into a list whose members all dominate `x` keeps `x` in
front; used to show that sorting a sorted list is the identity. -/
theorem sortLe_of_pairwise (le : α → α → Bool) (l : List α)
    (hl : l.Pairwise (fun a b => le a b = true)) : sortLe le l = l := by
  induction l with
  | nil => rfl
  | cons x xs ih =>
    rcases hl with _ | ⟨hx, hxs⟩
    rw [sortLe, ih hxs]
    cases xs with
    | nil => rfl
    | cons y ys => exact insertLe_of_head le x y ys (hx y (List.mem_cons_self y ys))



theorem getD_assign_sha1 (rows : List FlaggedRow) (k : Nat) (hk : k < rows.length) :
    (assignRootCauseGroupIds rows).getD k "" =
      sha1hex (rowSignatureInput (rows.getD k dfltFlagged).base) := by
  rw [assignRootCauseGroupIds,
    List.getD_eq_getElem _ _ (by simpa using hk),
    List.getD_eq_getElem _ _ hk, List.getElem_map]

theorem is_unresolved_iff (g : RootCauseGroup) :
    g.is_unresolved = true ↔ g.resolved_at = Option.none := by
  simp [RootCauseGroup.is_unresolved]

theorem subjectBits_ne_nil_iff (cfg : ThresholdConfig) (l : WeeklyFlakeInsight) :
    subjectBits cfg l ≠ [] ↔
      (cfg.max_flake_rate ≤ l.flake_rate ∨
        (∃ d, l.wow_delta = Option.some d ∧ d.geQ cfg.max_wow_delta = true) ∨
        (∃ z, l.z_score = Option.some z ∧ cfg.max_z_score ≤ z)) := by
  rcases hd : l.wow_delta with _ | d
  all_goals rcases hz : l.z_score with _ | z
  all_goals by_cases hr : cfg.max_flake_rate ≤ l.flake_rate
  all_goals try by_cases hg : (RateDelta.geQ d cfg.max_wow_delta) = true
  all_goals try by_cases hZ : cfg.max_z_score ≤ z
  all_goals simp_all [subjectBits]


theorem qsub_eq_sub (a b : ℚ) : qsub a b = a - b := by
  rw [qsub, Rat.divInt_eq_div]
  push_cast
  conv_rhs => rw [← Rat.num_div_den a, ← Rat.num_div_den b]
  rw [div_sub_div _ _ (Nat.cast_ne_zero.mpr a.den_nz) (Nat.cast_ne_zero.mpr b.den_nz)]
  ring_nf

theorem mkRat_eq_div_cast (n d : Nat) : mkRat (n : Int) d = (n : ℚ) / (d : ℚ) := by
  rw [Rat.mkRat_eq_div]
  norm_num

/-! ### Claim theorems -/

/-- C1: for failed records whose three normalized failure-metadata
components agree, `assign_root_cause_group_ids` yields the same
signature, and the signature is the hexadecimal SHA-1 digest of the
three normalized values joined by `"||"` in the order
(failure_reason, stack_trace_hash, error_code). -/
theorem assign_root_cause_group_ids_sha1 (rows : List FlaggedRow) (i j : Nat)
    (hi : i < rows.length) (hj : j < rows.length)
    (h : (normalizeComponent (rows.getD i dfltFlagged).base.failure_reason,
          normalizeComponent (rows.getD i dfltFlagged).base.stack_trace_hash,
          normalizeComponent (rows.getD i dfltFlagged).base.error_code) =
        (normalizeComponent (rows.getD j dfltFlagged).base.failure_reason,
          normalizeComponent (rows.getD j dfltFlagged).base.stack_trace_hash,
          normalizeComponent (rows.getD j dfltFlagged).base.error_code)) :
    (assignRootCauseGroupIds rows).getD i "" = (assignRootCauseGroupIds rows).getD j "" ∧
    (assignRootCauseGroupIds rows).getD i "" =
      sha1hex (normalizeComponent (rows.getD i dfltFlagged).base.failure_reason ++ "||" ++
        normalizeComponent (rows.getD i dfltFlagged).base.stack_trace_hash ++ "||" ++
        normalizeComponent (rows.getD i dfltFlagged).base.error_code) := by
  have h1 := congrArg Prod.fst h
  have h2 := congrArg (fun p => p.2.1) h
  have h3 := congrArg (fun p => p.2.2) h
  simp only at h1 h2 h3
  refine ⟨?_, ?_⟩
  · rw [getD_assign_sha1 rows i hi, getD_assign_sha1 rows j hj,
      rowSignatureInput, rowSignatureInput, h1, h2, h3]
  · rw [getD_assign_sha1 rows i hi, rowSignatureInput]

theorem assign_root_cause_group_ids_sha1_witness :
    (assignRootCauseGroupIds c1rows).getD 0 "" = (assignRootCauseGroupIds c1rows).getD 1 "" ∧
    (assignRootCauseGroupIds c1rows).getD 0 "" =
      sha1hex (normalizeComponent (c1rows.getD 0 dfltFlagged).base.failure_reason ++ "||" ++
        normalizeComponent (c1rows.getD 0 dfltFlagged).base.stack_trace_hash ++ "||" ++
        normalizeComponent (c1rows.getD 0 dfltFlagged).base.error_code) :=
  assign_root_cause_group_ids_sha1 c1rows 0 1 (by decide) (by decide) (by decide)

/-- C5: `AlertingEngine.run` dispatches a notification exactly when the
insight sequence is non-empty and, on its latest entry, at least one of
the three threshold rules holds — flake rate at or above
`max_flake_rate`, a non-null week-over-week delta at or above
`max_wow_delta`, or a non-null Z-score at or above `max_z_score`. -/
theorem alerting_run_dispatch_iff (cfg : ThresholdConfig)
    (insights : List WeeklyFlakeInsight) :
    alertingRun cfg insights ≠ Option.none ↔
      ∃ l, insights.getLast? = Option.some l ∧
        (cfg.max_flake_rate ≤ l.flake_rate ∨
          (∃ d, l.wow_delta = Option.some d ∧ d.geQ cfg.max_wow_delta = true) ∨
          (∃ z, l.z_score = Option.some z ∧ cfg.max_z_score ≤ z)) := by
  cases insights with
  | nil => simp [alertingRun]
  | cons i rest =>
    rw [alertingRun, List.getLast?_eq_getLast (i :: rest) (List.cons_ne_nil i rest)]
    have hbits := subjectBits_ne_nil_iff cfg ((i :: rest).getLast (List.cons_ne_nil i rest))
    by_cases hb : (subjectBits cfg ((i :: rest).getLast (List.cons_ne_nil i rest))).isEmpty = true
    · have hnil : subjectBits cfg ((i :: rest).getLast (List.cons_ne_nil i rest)) = [] := by
        simpa [List.isEmpty_iff] using hb
      simp only [hb, if_true]
      simp [← hbits, hnil]
    · have hnn : subjectBits cfg ((i :: rest).getLast (List.cons_ne_nil i rest)) ≠ [] := by
        simpa [List.isEmpty_iff] using hb
      simp only [hb, if_false]
      simp [← hbits, hnn]

/-- C9: `groups_exceeding_sla` returns exactly the unresolved groups
whose age at the evaluation time is at least `sla_days` days. -/
theorem groups_exceeding_sla_mem (groups : List RootCauseGroup) (sla_days : ℤ)
    (now : DateTimeU) (g : RootCauseGroup) :
    g ∈ groupsExceedingSla groups sla_days now ↔
      g ∈ groups ∧ g.resolved_at = Option.none ∧
        (sla_days : ℚ) ≤ now.t - g.created_at.t := by
  induction groups with
  | nil => simp [groupsExceedingSla]
  | cons h0 t ih =>
    rw [groupsExceedingSla]
    split
    case isTrue hc =>
      rw [List.mem_cons, List.mem_cons, ih]
      constructor
      · rintro (rfl | ⟨hm, hu, ha⟩)
        · exact ⟨Or.inl rfl, (is_unresolved_iff g).mp hc.1, hc.2⟩
        · exact ⟨Or.inr hm, hu, ha⟩
      · rintro ⟨rfl | hm, hu, ha⟩
        · exact Or.inl rfl
        · exact Or.inr ⟨hm, hu, ha⟩
    case isFalse hc =>
      rw [ih, List.mem_cons]
      constructor
      · rintro ⟨hm, hu, ha⟩
        exact ⟨Or.inr hm, hu, ha⟩
      · rintro ⟨rfl | hm, hu, ha⟩
        · exact absurd ⟨(is_unresolved_iff g).mpr hu, ha⟩ hc
        · exact ⟨hm, hu, ha⟩


theorem assignWowDeltas_go_getD (prev : ℚ) (l : List ℚ) :
    ∀ i, i < l.length →
      (assignWowDeltas.go prev l).getD i Option.none =
        Option.some (wowDelta ((prev :: l).getD i 0) (l.getD i 0)) := by
  induction l generalizing prev with
  | nil => intro i hi; simp at hi
  | cons r rest ih =>
    intro i hi
    cases i with
    | zero => simp [assignWowDeltas.go]
    | succ k =>
      rw [assignWowDeltas.go]
      simpa using ih r k (by simpa using hi)

theorem assignWowDeltas_go_length (prev : ℚ) (l : List ℚ) :
    (assignWowDeltas.go prev l).length = l.length := by
  induction l generalizing prev with
  | nil => rfl
  | cons r rest ih => simp [assignWowDeltas.go, ih]

/-- C4: week-over-week delta assignment — null for the first week, and
for each later week the relative change against the previous week with
the jump-from-zero and zero-to-zero special cases; plus the spec's three
worked examples. -/
theorem enrich_wow_deltas_spec :
    (∀ rates : List ℚ, (assignWowDeltas rates).length = rates.length) ∧
    (∀ rates : List ℚ, 0 < rates.length →
      (assignWowDeltas rates).getD 0 (Option.some (RateDelta.fin 0)) = Option.none) ∧
    (∀ (rates : List ℚ) (i : Nat), i + 1 < rates.length →
      (assignWowDeltas rates).getD (i + 1) Option.none =
        Option.some (
          if approxZero (rates.getD i 0) then
            (if approxZero (rates.getD (i + 1) 0) then RateDelta.fin 0
             else RateDelta.posInf)
          else RateDelta.fin
            ((rates.getD (i + 1) 0 - rates.getD i 0) / rates.getD i 0))) ∧
    (∀ samples : List WeeklyFlakeSample,
      samples.Pairwise (fun a b => sampleLe a b = true) →
      enrichWowDeltas samples = assignWowDeltas (samples.map sampleRate)) ∧
    assignWowDeltas [0, 1/10] = [Option.none, Option.some RateDelta.posInf] ∧
    assignWowDeltas [0, 0] = [Option.none, Option.some (RateDelta.fin 0)] ∧
    assignWowDeltas [2/10, 1/10] = [Option.none, Option.some (RateDelta.fin (-(1/2)))] := by
  refine ⟨?_, ?_, ?_, ?_,
    by norm_num [assignWowDeltas, assignWowDeltas.go, wowDelta, approxZero, rateTol],
    by norm_num [assignWowDeltas, assignWowDeltas.go, wowDelta, approxZero, rateTol],
    by norm_num [assignWowDeltas, assignWowDeltas.go, wowDelta, approxZero, rateTol]⟩
  · intro rates
    cases rates with
    | nil => rfl
    | cons r rest => simp [assignWowDeltas, assignWowDeltas_go_length]
  · intro rates h
    cases rates with
    | nil => simp at h
    | cons r rest => simp [assignWowDeltas]
  · intro rates i hi
    cases rates with
    | nil => simp at hi
    | cons r rest =>
      rw [assignWowDeltas]
      have := assignWowDeltas_go_getD r rest i (by simpa using hi)
      simp only [List.getD_cons_succ]
      rw [this, wowDelta]
  · intro samples hs
    rw [enrichWowDeltas, sortLe_of_pairwise sampleLe samples hs]

theorem enrich_wow_deltas_spec_witness :
    (assignWowDeltas [0, 1/10]).getD (0 + 1) Option.none =
      Option.some (
        if approxZero (([0, 1/10] : List ℚ).getD 0 0) then
          (if approxZero (([0, 1/10] : List ℚ).getD (0 + 1) 0) then RateDelta.fin 0
           else RateDelta.posInf)
        else RateDelta.fin
          ((([0, 1/10] : List ℚ).getD (0 + 1) 0 - ([0, 1/10] : List ℚ).getD 0 0) /
            ([0, 1/10] : List ℚ).getD 0 0)) :=
  enrich_wow_deltas_spec.2.2.1 [0, 1/10] 0 (by decide)

theorem groupsExceedingSla_eq_filter (groups : List RootCauseGroup) (sla_days : ℤ)
    (now : DateTimeU) :
    groupsExceedingSla groups sla_days now =
      groups.filter fun g => g.is_unresolved &&
        decide ((sla_days : ℚ) ≤ now.t - g.created_at.t) := by
  induction groups with
  | nil => rfl
  | cons h0 t ih =>
    rw [groupsExceedingSla]
    by_cases hc : h0.is_unresolved = true ∧ (sla_days : ℚ) ≤ now.t - h0.created_at.t
    · rw [if_pos hc, List.filter_cons, if_pos (by simp [hc.1, hc.2]), ih]
    · rw [if_neg hc, List.filter_cons, if_neg ?_, ih]
      simp only [Bool.and_eq_true, decide_eq_true_eq]
      exact hc

theorem ensureLoop_eq (client : JiraClient) (tn : DateTimeU) (l : List RootCauseGroup) :
    ensureLoop client tn l =
      (l.map (fun g => g.jira_ticket.getD (mkTicket client g tn)),
        (l.filter (fun g => g.jira_ticket = Option.none)).map
          (fun g => (escalationSummary g, escalationDescription g))) := by
  induction l with
  | nil => rfl
  | cons g t ih =>
    cases hjt : g.jira_ticket with
    | none => simp [ensureLoop, ih, hjt, Option.getD]
    | some tk => simp [ensureLoop, ih, hjt, Option.getD]

/-- C10: `ensure_jira_tickets` returns one ticket per overdue group —
the stored metadata when the group already carries one (no Jira call),
else the metadata built from a single `create_ticket` call, which is
also stored onto the caller's group object; groups not exceeding the SLA
cause no call and stay unmodified. -/
theorem ensure_jira_tickets_spec (groups : List RootCauseGroup) (sla_days : ℤ)
    (client : JiraClient) (now ticketNow : DateTimeU) :
    (ensureJiraTickets groups sla_days client now ticketNow).1 =
      (groups.filter fun g => g.is_unresolved &&
          decide ((sla_days : ℚ) ≤ now.t - g.created_at.t)).map
        (fun g => g.jira_ticket.getD (mkTicket client g ticketNow)) ∧
    (ensureJiraTickets groups sla_days client now ticketNow).2.2 =
      ((groups.filter fun g => g.is_unresolved &&
          decide ((sla_days : ℚ) ≤ now.t - g.created_at.t)).filter
        (fun g => g.jira_ticket = Option.none)).map
        (fun g => (escalationSummary g, escalationDescription g)) ∧
    (∀ i, i < groups.length →
      (ensureJiraTickets groups sla_days client now ticketNow).2.1.getD i dfltGroup =
        (if ((groups.getD i dfltGroup).is_unresolved = true ∧
              (sla_days : ℚ) ≤ now.t - (groups.getD i dfltGroup).created_at.t) ∧
            (groups.getD i dfltGroup).jira_ticket = Option.none then
          { groups.getD i dfltGroup with
              jira_ticket :=
                Option.some (mkTicket client (groups.getD i dfltGroup) ticketNow) }
        else groups.getD i dfltGroup)) := by
  refine ⟨?_, ?_, ?_⟩
  · simp [ensureJiraTickets, groupsExceedingSla_eq_filter, ensureLoop_eq]
  · simp [ensureJiraTickets, groupsExceedingSla_eq_filter, ensureLoop_eq]
  · intro i hi
    simp only [ensureJiraTickets]
    rw [List.getD_eq_getElem _ _ (by simpa using hi), List.getD_eq_getElem _ _ hi,
      List.getElem_map]

theorem ensure_jira_tickets_spec_witness :
    (ensureJiraTickets slaGroups 5 slaClient ⟨10, "d10"⟩ ⟨10, "t10"⟩).1 =
      (slaGroups.filter fun g => g.is_unresolved &&
          decide (((5 : ℤ) : ℚ) ≤ (10 : ℚ) - g.created_at.t)).map
        (fun g => g.jira_ticket.getD (mkTicket slaClient g ⟨10, "t10"⟩)) ∧
    (ensureJiraTickets slaGroups 5 slaClient ⟨10, "d10"⟩ ⟨10, "t10"⟩).2.1.getD 0 dfltGroup =
      (if ((slaGroups.getD 0 dfltGroup).is_unresolved = true ∧
            ((5 : ℤ) : ℚ) ≤ (10 : ℚ) - (slaGroups.getD 0 dfltGroup).created_at.t) ∧
          (slaGroups.getD 0 dfltGroup).jira_ticket = Option.none then
        { slaGroups.getD 0 dfltGroup with
            jira_ticket :=
              Option.some (mkTicket slaClient (slaGroups.getD 0 dfltGroup) ⟨10, "t10"⟩) }
      else slaGroups.getD 0 dfltGroup) :=
  ⟨(ensure_jira_tickets_spec slaGroups 5 slaClient ⟨10, "d10"⟩ ⟨10, "t10"⟩).1,
    (ensure_jira_tickets_spec slaGroups 5 slaClient ⟨10, "d10"⟩ ⟨10, "t10"⟩).2.2 0 (by decide)⟩

/-- C7: with zero failed records, both failure-grouping operations
return a zero-row result that still carries the full declared column
set. -/
theorem failure_groupers_empty_schema (f : FlaggedFrame)
    (hp : f.schema.hasPlatform = true) (ht : f.schema.hasTeam = true)
    (h : ∀ r ∈ f.rows, r.failed = false) :
    computeFailureGroupSummaries f =
      Except.ok ⟨["platform", "team", "root_cause_group_id", "failure_count",
        "affected_tests", "latest_failure_at"], []⟩ ∧
    buildFailureGroupRuns f =
      ⟨["root_cause_group_id", "test_name", "run_id", "executed_at",
        "run_url", "log_path", "failure_reason"], []⟩ := by
  have hfil : f.rows.filter (·.failed) = [] :=
    List.filter_eq_nil_iff.mpr fun a ha => by simp [h a ha]
  constructor
  · rw [computeFailureGroupSummaries, if_pos ⟨hp, ht⟩]
    simp [hfil, failureGroupColumns]
  · rw [buildFailureGroupRuns]
    simp [hfil, failureGroupRunColumns]

theorem failure_groupers_empty_schema_witness :
    computeFailureGroupSummaries noFailFrame =
      Except.ok ⟨["platform", "team", "root_cause_group_id", "failure_count",
        "affected_tests", "latest_failure_at"], []⟩ ∧
    buildFailureGroupRuns noFailFrame =
      ⟨["root_cause_group_id", "test_name", "run_id", "executed_at",
        "run_url", "log_path", "failure_reason"], []⟩ :=
  failure_groupers_empty_schema noFailFrame (by decide) (by decide) (by decide)

theorem getD_append_left (s t : List PandasObj) (i : Nat) (d : PandasObj)
    (h : i < s.length) : (s ++ t).getD i d = s.getD i d := by
  rw [List.getD_eq_getElem?_getD, List.getD_eq_getElem?_getD, List.getElem?_append,
    if_pos h]

theorem set_append_length (s : List PandasObj) (x y : PandasObj) :
    (s ++ [x]).set s.length y = s ++ [y] := by
  induction s with
  | nil => rfl
  | cons a as ih => simp [List.set, ih]

/-- C8: the three analytics entry points never write to the
caller-supplied frame: every store object that existed before the call
is unchanged after it (fresh copies receive all derived columns). -/
theorem analytics_preserve_input_frame (s : FrameStore) (df : Nat)
    (h : df < s.length) :
    getObj (perTestProg s df).1 df = getObj s df ∧
    getObj (summariesProg s df).1 df = getObj s df ∧
    getObj (drillProg s df).1 df = getObj s df := by
  have hga : ∀ x : PandasObj, getObj (s ++ [x]) df = getObj s df := fun x =>
    getD_append_left s [x] df _ h
  have hset : ∀ x y : PandasObj,
      getObj ((s ++ [x]).set s.length y) df = getObj s df := by
    intro x y
    rw [getObj, set_append_length, ← getObj, hga y]
  refine ⟨?_, ?_, ?_⟩
  · simp only [perTestProg, allocObj, setObj]
    exact hset _ _
  · simp only [summariesProg, allocObj, setObj]
    split
    · split
      · exact hga _
      · exact hset _ _
    · rfl
  · simp only [drillProg, allocObj, setObj]
    split
    · exact hga _
    · exact hset _ _

theorem analytics_preserve_input_frame_witness :
    getObj (perTestProg [PandasObj.runs sampleFrame] 0).1 0 =
      getObj [PandasObj.runs sampleFrame] 0 ∧
    getObj (summariesProg [PandasObj.runs sampleFrame] 0).1 0 =
      getObj [PandasObj.runs sampleFrame] 0 ∧
    getObj (drillProg [PandasObj.runs sampleFrame] 0).1 0 =
      getObj [PandasObj.runs sampleFrame] 0 :=
  analytics_preserve_input_frame [PandasObj.runs sampleFrame] 0 (by decide)

/-- C6: the per-test metrics output is sorted by `flake_rate` in
descending order. -/
theorem per_test_metrics_sorted_desc (f : RunsFrame) :
    (computePerTestFlakeMetrics f).Pairwise
      (fun a b => b.flake_rate ≤ a.flake_rate) := by
  have key : ∀ l : List PerTestRow,
      (sortLe perTestLe l).Pairwise (fun a b => b.flake_rate ≤ a.flake_rate) := by
    intro l
    have h := pairwise_sortLe perTestLe
      (fun a b => by
        simp only [perTestLe, decide_eq_true_eq]
        exact le_total b.flake_rate a.flake_rate)
      (fun a b c hab hbc => by
        simp only [perTestLe, decide_eq_true_eq] at hab hbc ⊢
        exact le_trans hbc hab)
      l
    exact h.imp fun hab => by simpa [perTestLe] using hab
  unfold computePerTestFlakeMetrics perTestCore
  exact key _


theorem insertLe_length (le : α → α → Bool) (x : α) (l : List α) :
    (insertLe le x l).length = l.length + 1 := by
  induction l with
  | nil => rfl
  | cons y ys ih =>
    rw [insertLe]
    split
    · rfl
    · simp [ih]

theorem sortLe_length (le : α → α → Bool) (l : List α) :
    (sortLe le l).length = l.length := by
  induction l with
  | nil => rfl
  | cons x xs ih => simp [sortLe, insertLe_length, ih]

theorem zipStab_mem (rs : List FlaggedRow) :
    ∀ (as bs : List ℚ) (x : StabRow), x ∈ zipStab rs as bs →
      ∃ r ∈ rs, x.base = r.base ∧ x.failed = r.failed := by
  induction rs with
  | nil => intro as bs x hx; cases as <;> cases bs <;> simp [zipStab] at hx
  | cons r rest ih =>
    intro as bs x hx
    cases as with
    | nil => simp [zipStab] at hx
    | cons a as =>
      cases bs with
      | nil => simp [zipStab] at hx
      | cons b bs =>
        rw [zipStab, List.mem_cons] at hx
        rcases hx with heq | hx
        · exact ⟨r, List.mem_cons_self r rest, by rw [heq], by rw [heq]⟩
        · obtain ⟨r1, hr1, h1, h2⟩ := ih as bs x hx
          exact ⟨r1, List.mem_cons_of_mem r hr1, h1, h2⟩

theorem mem_applyWindows (grp : List FlaggedRow) (x : StabRow)
    (hx : x ∈ applyWindows grp) :
    ∃ r ∈ grp, x.base = r.base ∧ x.failed = r.failed := by
  rw [applyWindows] at hx
  obtain ⟨r, hr, h1, h2⟩ := zipStab_mem _ _ _ _ hx
  rw [sortByTime, mem_sortLe] at hr
  exact ⟨r, hr, h1, h2⟩

theorem mem_computeStabilityWindows (f : FlaggedFrame) (x : StabRow)
    (hx : x ∈ computeStabilityWindows f) :
    ∃ r ∈ f.rows, x.base = r.base ∧ x.failed = r.failed := by
  rw [computeStabilityWindows] at hx
  obtain ⟨k, _, hxk⟩ := List.mem_flatMap.mp hx
  obtain ⟨r, hr, h1, h2⟩ := mem_applyWindows _ _ hxk
  exact ⟨r, (List.mem_filter.mp hr).1, h1, h2⟩

theorem mem_groupKeys (names : List String) (k : String) :
    k ∈ groupKeys names ↔ k ∈ names := by
  rw [groupKeys, mem_sortLe, List.mem_dedup]

theorem mkRat_bounds (a b : Nat) (hb : 0 < b) (hab : a ≤ b) :
    0 ≤ mkRat (a : Int) b ∧ mkRat (a : Int) b ≤ 1 := by
  rw [mkRat_eq_div_cast]
  constructor
  · positivity
  · rw [div_le_one (by exact_mod_cast hb)]
    exact_mod_cast hab

theorem totalsFor_bounds (sch : Schema) (E : List StabRow) (name : String)
    (hmem : ∃ s ∈ E, s.base.test_name = name)
    (hrid : sch.hasRunId = false ∨ ∀ s ∈ E, s.base.run_id.isSome = true) :
    0 < (totalsFor sch E name).2.1 ∧
    0 ≤ (totalsFor sch E name).2.2.2 ∧ (totalsFor sch E name).2.2.2 ≤ 1 := by
  obtain ⟨s, hs, hsname⟩ := hmem
  have hsgrp : s ∈ E.filter (fun x => x.base.test_name = name) :=
    List.mem_filter.mpr ⟨hs, by simp [hsname]⟩
  have hpos : 0 < (E.filter (fun x => x.base.test_name = name)).length :=
    List.length_pos.mpr (List.ne_nil_of_mem hsgrp)
  have hfail :
      ((E.filter (fun x => x.base.test_name = name)).filter (·.failed)).length ≤
        (E.filter (fun x => x.base.test_name = name)).length :=
    List.length_filter_le _ _
  have htotal : (if sch.hasRunId then
        ((E.filter (fun x => x.base.test_name = name)).filter
          (·.base.run_id.isSome)).length
      else (E.filter (fun x => x.base.test_name = name)).length) =
      (E.filter (fun x => x.base.test_name = name)).length := by
    rcases hrid with h0 | hAll
    · rw [h0]
      simp
    · rw [List.filter_eq_self.mpr fun a ha => hAll a (List.mem_filter.mp ha).1]
      simp
  rw [totalsFor]
  simp only [htotal]
  refine ⟨hpos, ?_⟩
  rw [if_neg (by omega)]
  exact mkRat_bounds _ _ hpos hfail

theorem perTestRowOf_flake_rate (sch : Schema) (E : List StabRow)
    (totals : List (String × Nat × Nat × ℚ)) (s7 s30 : List (Option ℚ)) (i : Nat) :
    (perTestRowOf sch E totals s7 s30 i).flake_rate =
      (totals.getD i ("", 0, 0, 0)).2.2.2 := rfl

theorem perTestRowOf_total_runs (sch : Schema) (E : List StabRow)
    (totals : List (String × Nat × Nat × ℚ)) (s7 s30 : List (Option ℚ)) (i : Nat) :
    (perTestRowOf sch E totals s7 s30 i).total_runs =
      (totals.getD i ("", 0, 0, 0)).2.1 := rfl

theorem perTestRowOf_bounds (sch : Schema) (E : List StabRow) (K : List String)
    (s7 s30 : List (Option ℚ)) (i : Nat)
    (hi : i < (K.map (totalsFor sch E)).length)
    (hK : ∀ k ∈ K, ∃ s ∈ E, s.base.test_name = k)
    (hrid : sch.hasRunId = false ∨ ∀ s ∈ E, s.base.run_id.isSome = true) :
    (0 ≤ (perTestRowOf sch E (K.map (totalsFor sch E)) s7 s30 i).flake_rate ∧
      (perTestRowOf sch E (K.map (totalsFor sch E)) s7 s30 i).flake_rate ≤ 1) ∧
    ((perTestRowOf sch E (K.map (totalsFor sch E)) s7 s30 i).total_runs = 0 →
      (perTestRowOf sch E (K.map (totalsFor sch E)) s7 s30 i).flake_rate = 0) := by
  have hiK : i < K.length := by simpa using hi
  have ht : (K.map (totalsFor sch E)).getD i ("", 0, 0, 0) =
      totalsFor sch E (K.getD i "") := by
    rw [List.getD_eq_getElem _ _ hi, List.getD_eq_getElem _ _ hiK, List.getElem_map]
  have hkmem : K.getD i "" ∈ K := by
    rw [List.getD_eq_getElem _ _ hiK]
    exact List.getElem_mem hiK
  obtain ⟨hpos, hlo, hhi⟩ :=
    totalsFor_bounds sch E (K.getD i "") (hK _ hkmem) hrid
  refine ⟨⟨?_, ?_⟩, ?_⟩
  · rw [perTestRowOf_flake_rate, ht]
    exact hlo
  · rw [perTestRowOf_flake_rate, ht]
    exact hhi
  · rw [perTestRowOf_total_runs, perTestRowOf_flake_rate, ht]
    intro h0
    omega

/-! ### Claim theorems for the per-test metric pipeline -/

/-- C2 (code bug): on the spec's example dataset the rolling stability
at test_checkout's latest record is 2/3, but the per-test output carries
NaN in `stability_7d` — line 177 assigns the test_name-indexed
`latest_stability` Series into the integer-indexed `totals` frame, and
index alignment finds no matching label. -/
theorem per_test_stability_columns_nan :
    ((latestStab (computeStabilityWindows (flagFrame sampleFrame)) "test_checkout").map
        (·.stability_7d)) = Option.some (2/3 : ℚ) ∧
    ((computePerTestFlakeMetrics sampleFrame).find?
        (·.test_name = "test_checkout")).map (·.stability_7d) =
      Option.some Option.none := by
  have h23 : (2/3 : ℚ) = mkRat 2 3 := by norm_num [Rat.mkRat_eq_div]
  rw [h23]
  exact ⟨by decide, by decide⟩

/-- C3 counterexample: with a `run_id` column that holds only nulls, the
single output row for test `"t"` has `total_runs = 0` (the non-null
count) yet `flake_rate = 2`, which is neither 0 nor within `[0, 1]`. -/
theorem flake_rate_counterexample :
    (computePerTestFlakeMetrics nullRunIdFrame).map
        (fun r => (r.test_name, r.total_runs, r.flake_rate)) = [("t", 0, 2)] ∧
    ¬ ((2 : ℚ) ≤ 1) ∧ (2 : ℚ) ≠ 0 := by
  refine ⟨by decide, by norm_num, by norm_num⟩

/-- C3 (amended): when the dataset has no `run_id` column, or its
`run_id` values are all non-null, every output `flake_rate` lies in
`[0, 1]`, and the `total_runs = 0 → flake_rate = 0` clause holds (no
such row arises).  With partly-null `run_id` values, `total_runs` counts
only the non-null entries and `flake_rate = failed_runs / max(total_runs, 1)`
can leave `[0, 1]`. -/
theorem flake_rate_bounds (f : RunsFrame)
    (h : f.schema.hasRunId = false ∨ ∀ r ∈ f.rows, r.run_id.isSome = true) :
    ∀ p ∈ computePerTestFlakeMetrics f,
      (0 ≤ p.flake_rate ∧ p.flake_rate ≤ 1) ∧
      (p.total_runs = 0 → p.flake_rate = 0) := by
  intro p hp
  simp only [computePerTestFlakeMetrics, perTestCore] at hp
  rw [mem_sortLe, List.mem_map] at hp
  obtain ⟨i, hi, rfl⟩ := hp
  rw [List.mem_range] at hi
  refine perTestRowOf_bounds _ _ _ _ _ i hi ?_ ?_
  · intro k hk
    rw [mem_groupKeys] at hk
    obtain ⟨s, hs, hsk⟩ := List.mem_map.mp hk
    exact ⟨s, hs, hsk⟩
  · rcases h with h0 | hAll
    · exact Or.inl h0
    · refine Or.inr fun s hsE => ?_
      obtain ⟨r, hr, hbase, _⟩ := mem_computeStabilityWindows _ _ hsE
      obtain ⟨r0, hr0, rfl⟩ := List.mem_map.mp hr
      rw [hbase]
      exact hAll r0 hr0

theorem flake_rate_bounds_witness :
    (0 ≤ loginMetricRow.flake_rate ∧ loginMetricRow.flake_rate ≤ 1) ∧
    (loginMetricRow.total_runs = 0 → loginMetricRow.flake_rate = 0) :=
  flake_rate_bounds sampleFrame (Or.inr (by decide)) loginMetricRow (by decide)

end FlakeDashboard
